import Mathlib

/-!
Verification development for the Identity Reconciliation & Face-Assignment Engine
(f3-siteq-backblast).

The definitions below are a shallow embedding of the engine's relational rows and
operations:

* data model — `Photo`, `Face` (the `photo_faces` table, the spec's DetectedFace),
  `Person`, `Encoding` (the `face_encodings` table, the spec's FaceEncoding), and `DB`;
* detection — `processPhoto`, `robustPhotoProcessing` (localFaceDetection.ts);
* recognition and the geometric matcher — `processMatch`, `processPhotoRecognition`
  (localFaceRecognition.ts, `processPhotoRecognition`);
* atomic identity commit — `createPersonWithFace` (people.ts) and `assignFace`
  (photo router);
* reconciliation — `deletePerson` (people.ts `delete`) and `syncWithAws`
  (faces router drift audit).

Numeric columns that the service reports as floats (similarities, confidences,
bounding-box coordinates) are modelled as rationals; JavaScript falsiness checks
(`|| 0`, `if (!faceId)`, `if (personRecord?.personId)`) are modelled explicitly.
External calls (Rekognition, S3) are modelled by outcome parameters, and the list of
external calls an operation performs is returned so that "before any external call"
properties can be stated.  Row ids produced by `serial` columns are modelled by
fresh-id helpers.  Columns that no property below mentions (image metadata on
photos, quality metrics on faces) are omitted from the row structures.
-/

/-- Bounding box in image-relative units, as stored in the `boundingBox` jsonb
column and as reported by the service (`{left, top, width, height}`). -/
structure Box where
  left : ℚ
  top : ℚ
  width : ℚ
  height : ℚ
deriving DecidableEq

/-- One `photo_faces` row (the spec's DetectedFace). -/
structure Face where
  id : ℕ
  photoId : ℕ
  personId : Option ℕ
  awsFaceId : Option String
  confidence : Option ℚ
  boundingBox : Option Box
  isConfirmed : Bool
  detectionMethod : Option String
  reviewStatus : String
deriving DecidableEq

/-- One `photos` row.  The image-metadata columns (`imageWidth`, `imageHeight`,
`averageFaceSize`, `preprocessed`, `enhancementApplied`) are written only from the
preprocessing result and are not referenced by any property below; they are omitted. -/
structure Photo where
  id : ℕ
  s3Key : String
  processingStatus : String
  faceCount : ℕ
  processingAttempts : ℕ
  lastError : Option String
deriving DecidableEq

/-- One `people` row (timestamps omitted). -/
structure Person where
  id : ℕ
  name : String
deriving DecidableEq

/-- One `face_encodings` row (the spec's FaceEncoding).  `awsFaceId` is `notNull`
in the schema, hence not an `Option`. -/
structure Encoding where
  id : ℕ
  personId : Option ℕ
  awsFaceId : String
  confidence : ℚ
  imageUrl : Option String
deriving DecidableEq

/-- The local relational state. -/
structure DB where
  photos : List Photo
  faces : List Face
  people : List Person
  encodings : List Encoding
deriving DecidableEq

/-- `ctx.db.query.photoFaces.findFirst({where: eq(photoFaces.id, faceId)})`. -/
def findFace (db : DB) (faceId : ℕ) : Option Face :=
  db.faces.find? (fun f => f.id == faceId)

/-- `ctx.db.query.photos.findFirst({where: eq(photos.id, photoId)})`. -/
def findPhoto (db : DB) (photoId : ℕ) : Option Photo :=
  db.photos.find? (fun p => p.id == photoId)

/-- `ctx.db.query.people.findFirst({where: eq(people.id, personId)})`. -/
def findPerson (db : DB) (personId : ℕ) : Option Person :=
  db.people.find? (fun p => p.id == personId)

/-- Fresh id for a `photo_faces` insert (`serial` column). -/
def nextFaceId (db : DB) : ℕ := (db.faces.map Face.id).foldr max 0 + 1

/-- Fresh id for a `people` insert (`serial` column). -/
def nextPersonId (db : DB) : ℕ := (db.people.map Person.id).foldr max 0 + 1

/-- Fresh id for a `face_encodings` insert (`serial` column). -/
def nextEncodingId (db : DB) : ℕ := (db.encodings.map Encoding.id).foldr max 0 + 1

/-! ### Detection Orchestrator (localFaceDetection.ts) -/

/-- One `FaceDetail` returned by the external detection call, reduced to the fields
the engine stores: `face.Confidence || 0` and `face.BoundingBox` (whose missing
fields default to 0; a wholly missing box is `none`). -/
structure DetectedFaceInput where
  confidence : ℚ
  box : Option Box
deriving DecidableEq

/-- The `photo_faces` record built by `processPhoto` for detection result `idx`:
placeholder `awsFaceId` `"detected-<photoId>-<idx>"`, no person, `reviewStatus`
"pending", `detectionMethod` "group_photo_enhanced". -/
def detectedFaceRecord (db : DB) (photoId idx : ℕ) (inp : DetectedFaceInput) : Face :=
  { id := nextFaceId db + idx
    photoId := photoId
    personId := none
    awsFaceId := some ("detected-" ++ toString photoId ++ "-" ++ toString idx)
    confidence := some inp.confidence
    boundingBox := some (inp.box.getD ⟨0, 0, 0, 0⟩)
    isConfirmed := false
    detectionMethod := some "group_photo_enhanced"
    reviewStatus := "pending" }

/-- Success path of `processPhoto`: inside one transaction, set the photo's
`processingStatus` to "completed" and `faceCount` to the number of detected faces,
and insert one `photo_faces` row per detection result. -/
def processPhoto (db : DB) (photoId : ℕ) (detected : List DetectedFaceInput) : DB :=
  { db with
    photos := db.photos.map (fun p =>
      if p.id == photoId then
        { p with processingStatus := "completed", faceCount := detected.length }
      else p)
    faces := db.faces ++ (detected.enum.map fun pr => detectedFaceRecord db photoId pr.1 pr.2) }

/-- `db.update(photos).set({processingAttempts: attempt})` in the retry loop's catch. -/
def setProcessingAttempts (db : DB) (photoId n : ℕ) : DB :=
  { db with
    photos := db.photos.map (fun p =>
      if p.id == photoId then { p with processingAttempts := n } else p) }

/-- `markProcessingFailed`: set `processingStatus` "failed" and `lastError`. -/
def markProcessingFailed (db : DB) (photoId : ℕ) (msg : String) : DB :=
  { db with
    photos := db.photos.map (fun p =>
      if p.id == photoId then
        { p with processingStatus := "failed", lastError := some msg }
      else p) }

/-- Outcome of one `processPhoto` attempt: it either returns `success: true` with
the detected faces, or throws with an error message. -/
inductive AttemptOutcome where
  | ok (detected : List DetectedFaceInput)
  | err (msg : String)
deriving DecidableEq

deriving instance DecidableEq for Except

/-- Result of `robustPhotoProcessing`: the final database state, the returned value
or thrown error, the number of attempts actually made, and the backoff delays
(in ms) actually slept between attempts. -/
structure DetectionRun where
  db : DB
  result : Except String ℕ
  attemptsMade : ℕ
  sleeps : List ℕ
deriving DecidableEq

/-- The backoff delay the source computes: `Math.pow(2, attempt) * 1000` ms. -/
def backoffMs (attempt : ℕ) : ℕ := 2 ^ attempt * 1000

/-- The `for (attempt = 1; attempt <= maxRetries; attempt++)` loop of
`robustPhotoProcessing`.  A successful `processPhoto` returns `success: true`
immediately, so the branch that sleeps `backoffMs attempt` (taken only when
`processPhoto` returns without throwing and with `success: false`) is unreachable
and `sleeps` is never extended; a thrown attempt records `processingAttempts` and
retries immediately, and the last thrown attempt additionally runs
`markProcessingFailed` and rethrows. -/
def robustLoop (photoId maxRetries : ℕ) :
    List AttemptOutcome → DB → ℕ → ℕ → List ℕ → DetectionRun
  | [], db, _attempt, made, sleeps =>
      ⟨db, .error "Failed to process photo after all retries", made, sleeps⟩
  | .ok detected :: _, db, _attempt, made, sleeps =>
      ⟨processPhoto db photoId detected, .ok detected.length, made + 1, sleeps⟩
  | .err e :: rest, db, attempt, made, sleeps =>
      let db1 := setProcessingAttempts db photoId attempt
      if attempt == maxRetries then
        ⟨markProcessingFailed db1 photoId e, .error e, made + 1, sleeps⟩
      else
        robustLoop photoId maxRetries rest db1 (attempt + 1) (made + 1) sleeps

/-- `robustPhotoProcessing(photoId, s3Key, maxRetries = 3)`. -/
def robustPhotoProcessing (db : DB) (photoId : ℕ) (outcomes : List AttemptOutcome) :
    DetectionRun :=
  robustLoop photoId 3 outcomes db 1 0 []

/-! ### Recognition & Geometric Matcher (localFaceRecognition.ts) -/

/-- Conservative threshold (`const conservativeThreshold = 75`). -/
def conservativeThreshold : ℚ := 75

/-- Liberal search threshold (`const faceMatchThreshold = 60`). -/
def faceMatchThreshold : ℚ := 60

/-- One `FaceMatch` returned by the similarity search: `match.Face?.FaceId`,
`match.Similarity`, `match.Face?.BoundingBox`. -/
structure Match where
  faceId : Option String
  similarity : Option ℚ
  box : Option Box
deriving DecidableEq

/-- The per-match record pushed to `recognitionResults` / `manualReviewQueue`. -/
structure MatchResult where
  personId : ℕ
  confidence : ℚ
  faceId : String
  status : String
  needsReview : Bool
deriving DecidableEq

/-- One `tx.update(photoFaces).set({personId, confidence, detectionMethod,
reviewStatus}).where(eq(photoFaces.id, targetFace.id))` call performed during a
recognition pass. -/
structure RecogUpdate where
  faceId : ℕ
  personId : ℕ
  confidence : ℚ
  status : String
deriving DecidableEq

/-- Mutable state of the per-match loop inside the recognition transaction:
the current `photo_faces` rows and the accumulators (plus the log of face
updates issued so far). -/
structure RecogState where
  faces : List Face
  results : List MatchResult
  reviewQueue : List MatchResult
  updates : List RecogUpdate
deriving DecidableEq

/-- `recognitionStatus` from the confidence if-chain: "confirmed" at or above the
conservative threshold, else "review" at or above the search threshold, else
"pending". -/
def recognitionStatus (c : ℚ) : String :=
  if c ≥ conservativeThreshold then "confirmed"
  else if c ≥ faceMatchThreshold then "review"
  else "pending"

/-- `needsReview` from the same if-chain (set only in the "review" branch). -/
def matchNeedsReview (c : ℚ) : Bool :=
  if c ≥ conservativeThreshold then false
  else if c ≥ faceMatchThreshold then true
  else false

/-- `tx.query.faceEncodings.findFirst({where: eq(faceEncodings.awsFaceId, faceId),
columns: {personId: true}})` followed by reading `personId`. -/
def lookupPersonId (encs : List Encoding) (fid : String) : Option ℕ :=
  match encs.find? (fun e => e.awsFaceId == fid) with
  | some e => e.personId
  | none => none

/-- `Math.max` on the modelled numbers (the lattice `max` on `ℚ` does not reduce
in the kernel, so the source's `Math.max`/`Math.min` are modelled explicitly). -/
def ratMax (a b : ℚ) : ℚ := if a ≤ b then b else a

/-- `Math.min` on the modelled numbers. -/
def ratMin (a b : ℚ) : ℚ := if a ≤ b then a else b

/-- Overlap ratio the matcher computes for one candidate: the axis-aligned
intersection of the match's box with the face's box, divided by the face's own
area; 0 when the intersection is not strictly positive or the face area is not
strictly positive (the source skips such candidates, which is equivalent because
`bestOverlap` starts at 0 and only a strictly larger ratio replaces it). -/
def overlapRatio (matchBB faceBB : Box) : ℚ :=
  let overlapLeft := ratMax faceBB.left matchBB.left
  let overlapTop := ratMax faceBB.top matchBB.top
  let overlapRight := ratMin (faceBB.left + faceBB.width) (matchBB.left + matchBB.width)
  let overlapBottom := ratMin (faceBB.top + faceBB.height) (matchBB.top + matchBB.height)
  if overlapLeft < overlapRight ∧ overlapTop < overlapBottom then
    let overlapArea := (overlapRight - overlapLeft) * (overlapBottom - overlapTop)
    let faceArea := faceBB.width * faceBB.height
    if 0 < faceArea then overlapArea / faceArea else 0
  else 0

/-- Ratio of a candidate face row (0 when the row has no bounding box — the
source skips such rows). -/
def candRatio (matchBB : Box) (f : Face) : ℚ :=
  match f.boundingBox with
  | none => 0
  | some faceBB => overlapRatio matchBB faceBB

/-- The `for (const face of allUnassignedFaces)` loop: `bestMatch`/`bestOverlap`
accumulator, replaced only on a strictly larger overlap ratio. -/
def findBestMatchAux (matchBB : Box) : List Face → Option Face × ℚ → Option Face × ℚ
  | [], acc => acc
  | f :: rest, acc =>
      findBestMatchAux matchBB rest
        (if candRatio matchBB f > acc.2 then (some f, candRatio matchBB f) else acc)

/-- `bestMatch = null; bestOverlap = 0` followed by the candidate loop. -/
def findBestMatch (matchBB : Box) (cands : List Face) : Option Face × ℚ :=
  findBestMatchAux matchBB cands (none, 0)

/-- Ratio of a candidate with respect to a match (0 when the match carries no
bounding box, in which case the source skips every candidate). -/
def matchRatio (m : Match) (f : Face) : ℚ :=
  match m.box with
  | none => 0
  | some mb => candRatio mb f

/-- `allUnassignedFaces`: the photo's rows with `personId` null. -/
def recogCandidates (photoId : ℕ) (faces : List Face) : List Face :=
  faces.filter (fun f => f.photoId == photoId && f.personId.isNone)

/-- Best match / best overlap for one search match. -/
def bestFor (m : Match) (cands : List Face) : Option Face × ℚ :=
  match m.box with
  | none => (none, 0)
  | some mb => findBestMatch mb cands

/-- `const targetFace = bestOverlap > 0.5 ? bestMatch : null` — the minimum-overlap
floor. -/
def matchTarget (m : Match) (cands : List Face) : Option Face :=
  if (bestFor m cands).2 > 1/2 then (bestFor m cands).1 else none

/-- The face-row write issued when a match binds to `targetFace`. -/
def applyAssign (fid pid : ℕ) (conf : ℚ) (status : String) (f : Face) : Face :=
  if f.id == fid then
    { f with personId := some pid, confidence := some conf,
             detectionMethod := some "group_photo", reviewStatus := status }
  else f

/-- Body of the `for (const match of faceMatches)` loop: skip matches without a
(truthy) face id or whose template does not resolve to a (truthy) `personId`;
classify by confidence; search the still-unassigned rows for the best bounding-box
overlap; update the winning row only above the 0.5 floor; and push the match's
record to `recognitionResults` or `manualReviewQueue` either way. -/
def processMatch (encs : List Encoding) (photoId : ℕ) (st : RecogState) (m : Match) :
    RecogState :=
  match m.faceId with
  | none => st
  | some fid =>
    if fid = "" then st
    else
      match lookupPersonId encs fid with
      | none => st
      | some personId =>
        if personId = 0 then st
        else
          let confidence := m.similarity.getD 0
          let status := recognitionStatus confidence
          let needsReview := matchNeedsReview confidence
          let result : MatchResult := ⟨personId, confidence, fid, status, needsReview⟩
          let next : List Face × List RecogUpdate :=
            match matchTarget m (recogCandidates photoId st.faces) with
            | some tf =>
                (st.faces.map (applyAssign tf.id personId confidence status),
                 st.updates ++ [⟨tf.id, personId, confidence, status⟩])
            | none => (st.faces, st.updates)
          ⟨next.1,
           if needsReview then st.results else st.results ++ [result],
           if needsReview then st.reviewQueue ++ [result] else st.reviewQueue,
           next.2⟩

/-- The summary object `processPhotoRecognition` returns (fields that no property
below mentions — `photoType`, `thresholdUsed`, `message` — are omitted). -/
structure RecognitionResult where
  facesRecognized : ℕ
  facesNeedingReview : ℕ
  totalMatches : ℕ
  results : List MatchResult
  reviewQueue : List MatchResult
deriving DecidableEq

/-- Full outcome of one recognition pass: the committed database, the returned
summary, and the log of face updates issued inside the transaction. -/
structure RecognitionOutcome where
  db : DB
  result : RecognitionResult
  updates : List RecogUpdate
deriving DecidableEq

/-- State at the top of the recognition transaction. -/
def initialRecogState (db : DB) : RecogState := ⟨db.faces, [], [], []⟩

/-- `processPhotoRecognition(photoId, s3Key, collectionId)`, success path: fold the
per-match loop over the search response inside one transaction and return the
summary (`facesRecognized = recognitionResults.length`, `facesNeedingReview =
manualReviewQueue.length`, `totalMatches = faceMatches.length`). -/
def processPhotoRecognition (db : DB) (photoId : ℕ) (ms : List Match) :
    RecognitionOutcome :=
  let final := ms.foldl (processMatch db.encodings photoId) (initialRecogState db)
  ⟨{ db with faces := final.faces },
   ⟨final.results.length, final.reviewQueue.length, ms.length,
    final.results, final.reviewQueue⟩,
   final.updates⟩

/-- Whether one match passes the guards that precede classification: a truthy
`FaceId` whose `face_encodings` row resolves to a truthy `personId`. -/
def resolvesKnownPerson (encs : List Encoding) (m : Match) : Bool :=
  match m.faceId with
  | none => false
  | some fid =>
    if fid = "" then false
    else
      match lookupPersonId encs fid with
      | none => false
      | some personId => !(personId == 0)

/-- Invariant of the per-match loop, relative to the rows `fs0` present when the
pass began: rows that were already assigned are untouched, currently-unassigned
rows are original rows, and the update log hits pairwise-distinct faces that were
unassigned at the start (an updated face is assigned from then on). -/
def RecogInv (fs0 : List Face) (st : RecogState) : Prop :=
  (∀ f0 ∈ fs0, f0.personId.isSome → f0 ∈ st.faces)
  ∧ (∀ f ∈ st.faces, f.personId = none → f ∈ fs0)
  ∧ (st.updates.map RecogUpdate.faceId).Nodup
  ∧ (∀ u ∈ st.updates, ∃ f0 ∈ fs0, f0.id = u.faceId ∧ f0.personId = none)
  ∧ (∀ u ∈ st.updates, ∀ f ∈ st.faces, f.id = u.faceId → f.personId.isSome)

/-! ### Atomic Identity Commit (people.ts `createPersonWithFace`, photo router
`assignFace`) -/

/-- TRPC error codes used by the operations below. -/
inductive TrpcCode where
  | notFound
  | badRequest
  | internal
deriving DecidableEq

/-- A thrown `TRPCError`. -/
structure TrpcErr where
  code : TrpcCode
  message : String
deriving DecidableEq

/-- External recognition-service calls an operation performs, in order. -/
inductive ExtCall where
  | indexFace (personId : ℕ) (s3Key : String) (externalId : String)
  | deleteFaces (faceIds : List String)
deriving DecidableEq

/-- `tx.update(photoFaces).set({personId, isConfirmed: true})` keyed on a face id. -/
def setFacePerson (fid pid : ℕ) (f : Face) : Face :=
  if f.id == fid then { f with personId := some pid, isConfirmed := true } else f

/-- `tx.update(photoFaces).set({awsFaceId})` keyed on a face id. -/
def setFaceAws (fid : ℕ) (aws : String) (f : Face) : Face :=
  if f.id == fid then { f with awsFaceId := some aws } else f

/-- Outcome of `createPersonWithFace`: final database, the returned
`(person.id, face.id, indexed)` or the thrown error, and the external calls made. -/
structure CommitOutcome where
  db : DB
  result : Except TrpcErr (ℕ × ℕ × Bool)
  extCalls : List ExtCall
deriving DecidableEq

/-- `peopleRouter.createPersonWithFace` (the new-name commit variant).
`indexOutcome` stands for the result of `indexNewFace` — on success the AWS face
id and the reported confidence (the encoding insert happens inside the same
transaction via the `tx` parameter), on failure the error message.  A failed
indexing throws inside the transaction, so every local write is rolled back. -/
def createPersonWithFace (db : DB) (name : String) (faceId : ℕ)
    (configured : Bool) (indexOutcome : Except String (String × ℚ)) : CommitOutcome :=
  match findFace db faceId with
  | none => ⟨db, .error ⟨.notFound, "Face not found"⟩, []⟩
  | some face =>
    match face.personId with
    | some q =>
        ⟨db, .error ⟨.badRequest, "Face is already assigned to person ID " ++ toString q⟩, []⟩
    | none =>
      let personId := nextPersonId db
      let db1 : DB := { db with people := db.people ++ [⟨personId, name⟩] }
      let db2 : DB := { db1 with faces := db1.faces.map (setFacePerson faceId personId) }
      match configured, findPhoto db face.photoId with
      | true, some photo =>
        let externalId := "face-" ++ toString faceId ++ "-person-" ++ toString personId
        match indexOutcome with
        | .error e =>
            ⟨db, .error ⟨.internal, "Failed to index face for recognition: " ++ e⟩,
             [.indexFace personId photo.s3Key externalId]⟩
        | .ok (awsFaceId, conf) =>
            let db3 : DB :=
              { db2 with encodings := db2.encodings ++
                  [⟨nextEncodingId db, some personId, awsFaceId, conf, some photo.s3Key⟩] }
            let db4 : DB := { db3 with faces := db3.faces.map (setFaceAws faceId awsFaceId) }
            ⟨db4, .ok (personId, faceId, true), [.indexFace personId photo.s3Key externalId]⟩
      | _, _ => ⟨db2, .ok (personId, faceId, false), []⟩

/-- Outcome of `assignFace`: final database, the returned face row (the one from
the first update, before any AWS id is written) or the thrown error, and the
external calls made. -/
structure AssignOutcome where
  db : DB
  result : Except TrpcErr Face
  extCalls : List ExtCall
deriving DecidableEq

/-- `photoRouter.assignFace` (the existing-personId commit variant).  There is no
already-assigned check: the update overwrites any existing `personId`.  The
assignment is a plain update committed before indexing; a failed `indexNewFace`
is only logged ("Don't throw - assignment should succeed even if indexing
fails"), so the assignment stands and no error is surfaced.  On success,
`indexNewFace` inserts the encoding in its own transaction and the face row then
receives the real AWS face id. -/
def assignFace (db : DB) (faceId personId : ℕ)
    (configured : Bool) (indexOutcome : Except String (String × ℚ)) : AssignOutcome :=
  match findFace db faceId with
  | none => ⟨db, .error ⟨.notFound, "Face not found"⟩, []⟩
  | some face =>
    let updatedFace := { face with personId := some personId, isConfirmed := true }
    let db1 : DB := { db with faces := db.faces.map (setFacePerson faceId personId) }
    match configured, findPhoto db face.photoId with
    | true, some photo =>
      let externalId := "face-" ++ toString faceId ++ "-person-" ++ toString personId
      match indexOutcome with
      | .ok (awsFaceId, conf) =>
          let db2 : DB :=
            { db1 with encodings := db1.encodings ++
                [⟨nextEncodingId db1, some personId, awsFaceId, conf, some photo.s3Key⟩] }
          let db3 : DB := { db2 with faces := db2.faces.map (setFaceAws faceId awsFaceId) }
          ⟨db3, .ok updatedFace, [.indexFace personId photo.s3Key externalId]⟩
      | .error _ =>
          ⟨db1, .ok updatedFace, [.indexFace personId photo.s3Key externalId]⟩
    | _, _ => ⟨db1, .ok updatedFace, []⟩

/-! ### Consistency & Cleanup Reconciler (people.ts `delete`, faces router
`syncWithAws`) -/

/-- Outcome of `peopleRouter.delete`: final database, the returned
`(deletedEncodingsCount, updatedPhotoFacesCount)` or the thrown error, and the
external calls made. -/
structure DeleteOutcome where
  db : DB
  result : Except TrpcErr (ℕ × ℕ)
  extCalls : List ExtCall
deriving DecidableEq

/-- Step 4 of `peopleRouter.delete`: revert a face owned by the person to
unassigned (`personId: null, awsFaceId: null, isConfirmed: false,
reviewStatus: "pending"`), preserving the row. -/
def revertFace (pid : ℕ) (f : Face) : Face :=
  if f.personId == some pid then
    { f with personId := none, awsFaceId := none, isConfirmed := false,
             reviewStatus := "pending" }
  else f

/-- `peopleRouter.delete`.  `remoteDeleteSucceeds` stands for the outcome of
`deleteFacesFromCollection`; the source only logs it ("Don't throw - continue
with database deletion even if AWS cleanup fails"), so no local write consults
it.  All local writes happen in one transaction. -/
def deletePerson (db : DB) (personId : ℕ)
    (configured remoteDeleteSucceeds : Bool) : DeleteOutcome :=
  match findPerson db personId with
  | none => ⟨db, .error ⟨.notFound, "Person not found"⟩, []⟩
  | some _ =>
    let personEncodings := db.encodings.filter (fun e => e.personId == some personId)
    let personFaces := db.faces.filter (fun f => f.personId == some personId)
    let awsFaceIds := (personEncodings.map Encoding.awsFaceId).filter (fun s => !(s == ""))
    let extCalls : List ExtCall :=
      if configured && !(personEncodings.length == 0) then
        if !(awsFaceIds.length == 0) then [.deleteFaces awsFaceIds] else []
      else []
    let db1 : DB := { db with encodings := db.encodings.filter (fun e => !(e.personId == some personId)) }
    let db2 : DB := { db1 with faces := db1.faces.map (revertFace personId) }
    let db3 : DB := { db2 with people := db2.people.filter (fun p => !(p.id == personId)) }
    ⟨db3, .ok (personEncodings.length, personFaces.length), extCalls⟩

/-- One face listed from the remote collection (`listFacesInCollection` maps each
to `{faceId: face.FaceId || "", ...}`; only the id is consulted by the audit). -/
structure AwsFace where
  faceId : String
deriving DecidableEq

/-- The object `syncWithAws` returns. -/
structure SyncReport where
  totalAwsFaces : ℕ
  totalDbFaces : ℕ
  orphanedDbFaces : ℕ
  orphanedAwsFaces : ℕ
  orphanedDbFacesList : List Encoding
  orphanedAwsFacesList : List AwsFace
deriving DecidableEq

/-- `facesRouter.syncWithAws` (the drift audit).  It only queries: the returned
database component is the input database unchanged.  Membership in the remote /
local id sets (`new Set(...)`, `.has(...)`) is modelled by list membership. -/
def syncWithAws (db : DB) (awsFaces : List AwsFace) : DB × SyncReport :=
  let dbFaces := db.encodings
  let awsIds := awsFaces.map AwsFace.faceId
  let dbIds := dbFaces.map Encoding.awsFaceId
  let orphanedDb := dbFaces.filter (fun f => !(decide (f.awsFaceId ∈ awsIds)))
  let orphanedAws := awsFaces.filter (fun f => !(decide (f.faceId ∈ dbIds)))
  (db,
   ⟨awsFaces.length, dbFaces.length, orphanedDb.length, orphanedAws.length,
    orphanedDb, orphanedAws⟩)

/-! ### Concrete instances used by the property statements below -/

/-- A detected face's bounding box occupying the top-left quarter of the image. -/
def exBox : Box := ⟨0, 0, 1/2, 1/2⟩

/-- A photo that has completed detection. -/
def exPhoto : Photo := ⟨1, "k", "completed", 1, 0, none⟩

/-- An unassigned detected face of `exPhoto` with the placeholder AWS id. -/
def exFace : Face :=
  ⟨1, 1, none, some "detected-1-0", some 99, some exBox, false,
   some "group_photo_enhanced", "pending"⟩

/-- A person known to the collection. -/
def exPerson : Person := ⟨7, "Alice"⟩

/-- An encoding mapping template "aws-1" to person 7. -/
def exEncoding : Encoding := ⟨1, some 7, "aws-1", 95, some "k"⟩

/-- A database with one completed photo, one unassigned face, and one known
person/template pair. -/
def exDB : DB := ⟨[exPhoto], [exFace], [exPerson], [exEncoding]⟩

/-- A search match for template "aws-1" at similarity 80 whose geometry overlaps
`exFace` at ratio 2/5 = 0.4 (intersection 1/10 over own area 1/4). -/
def exMatchLow : Match := ⟨some "aws-1", some 80, some ⟨0, 0, 1/5, 1/2⟩⟩

/-- A search match for template "aws-1" at similarity 80 whose geometry coincides
with `exFace` (overlap ratio 1). -/
def exMatchHigh : Match := ⟨some "aws-1", some 80, some exBox⟩

/-- The recognition-loop state at the top of a pass over `exDB`. -/
def exState : RecogState := ⟨[exFace], [], [], []⟩

/-- A face of `exPhoto` already assigned to person 7 (confidence 82.3,
reviewStatus "confirmed"). -/
def exFaceAssigned : Face :=
  ⟨2, 1, some 7, some "aws-1", some (823/10), some exBox, true,
   some "group_photo", "confirmed"⟩

/-- A database whose only face is already assigned to person 7. -/
def exDBassigned : DB := ⟨[exPhoto], [exFaceAssigned], [exPerson], [exEncoding]⟩

/-- A freshly uploaded photo with no faces yet. -/
def exDBdetect : DB := ⟨[⟨1, "k", "pending", 0, 0, none⟩], [], [], []⟩

unseal Rat.mul Rat.inv Rat.add Rat.sub in
example : matchRatio exMatchLow exFace = 2/5 := by decide

unseal Rat.mul Rat.inv Rat.add Rat.sub in
example : matchRatio exMatchHigh exFace = 1 := by decide

unseal Rat.mul Rat.inv Rat.add Rat.sub in
example : (processPhotoRecognition exDB 1 [exMatchLow]).result.facesRecognized = 1 := by decide

unseal Rat.mul Rat.inv Rat.add Rat.sub in
example : (processPhotoRecognition exDB 1 [exMatchLow]).updates = [] := by decide

unseal Rat.mul Rat.inv Rat.add Rat.sub in
example : (processPhotoRecognition exDB 1 [exMatchHigh]).updates = [⟨1, 7, 80, "confirmed"⟩] := by decide

/-! ### Helper lemmas -/

/-- `find?` commutes with mapping a predicate-preserving row update over a table. -/
theorem find?_map_of_pred {α : Type} (g : α → α) (p : α → Bool)
    (hp : ∀ a, p (g a) = p a) :
    ∀ l : List α, (l.map g).find? p = (l.find? p).map g := by
  intro l
  induction l with
  | nil => rfl
  | cons a t ih =>
    cases h : p a with
    | false =>
        have h2 : p (g a) = false := by rw [hp a, h]
        rw [List.map_cons, List.find?_cons_of_neg _ (by simp [h2]),
          List.find?_cons_of_neg _ (by simp [h]), ih]
    | true =>
        have h2 : p (g a) = true := by rw [hp a, h]
        rw [List.map_cons, List.find?_cons_of_pos _ h2, List.find?_cons_of_pos _ h,
          Option.map_some']

theorem setFacePerson_id (fid pid : ℕ) (f : Face) : (setFacePerson fid pid f).id = f.id := by
  unfold setFacePerson; split <;> rfl

theorem setFaceAws_id (fid : ℕ) (aws : String) (f : Face) :
    (setFaceAws fid aws f).id = f.id := by
  unfold setFaceAws; split <;> rfl

theorem applyAssign_id (fid pid : ℕ) (conf : ℚ) (status : String) (f : Face) :
    (applyAssign fid pid conf status f).id = f.id := by
  unfold applyAssign; split <;> rfl

theorem applyAssign_aws (fid pid : ℕ) (conf : ℚ) (status : String) (f : Face) :
    (applyAssign fid pid conf status f).awsFaceId = f.awsFaceId := by
  unfold applyAssign; split <;> rfl

theorem revertFace_id (pid : ℕ) (f : Face) : (revertFace pid f).id = f.id := by
  unfold revertFace; split <;> rfl

/-- `findFace` over a table rewritten by an id-preserving row update. -/
theorem findFace_map (l : List Face) (g : Face → Face) (hg : ∀ f, (g f).id = f.id)
    (x : ℕ) :
    (l.map g).find? (fun f => f.id == x) = (l.find? (fun f => f.id == x)).map g :=
  find?_map_of_pred g _ (fun a => by rw [hg]) l

/-- `findPhoto` over a table rewritten by an id-preserving row update. -/
theorem findPhoto_map (l : List Photo) (g : Photo → Photo) (hg : ∀ p, (g p).id = p.id)
    (x : ℕ) :
    (l.map g).find? (fun p => p.id == x) = (l.find? (fun p => p.id == x)).map g :=
  find?_map_of_pred g _ (fun a => by rw [hg]) l

/-! ### Claim theorems -/

/-- Claim C9: the drift audit returns exactly the symmetric difference of the local
`FaceEncoding.remoteTemplateId` set and the remote template-id set — every local
encoding with no remote counterpart appears in the local-only list, every remote id
with no local counterpart appears in the remote-only list, and nothing else — and
it performs no mutation of the local state (the returned database is the input
database; the remote side is only listed). -/
theorem drift_audit_symmetric_difference (db : DB) (awsFaces : List AwsFace) :
    (syncWithAws db awsFaces).1 = db
    ∧ (∀ e : Encoding, e ∈ (syncWithAws db awsFaces).2.orphanedDbFacesList ↔
        e ∈ db.encodings ∧ e.awsFaceId ∉ awsFaces.map AwsFace.faceId)
    ∧ (∀ a : AwsFace, a ∈ (syncWithAws db awsFaces).2.orphanedAwsFacesList ↔
        a ∈ awsFaces ∧ a.faceId ∉ db.encodings.map Encoding.awsFaceId)
    ∧ (syncWithAws db awsFaces).2.orphanedDbFaces
        = (syncWithAws db awsFaces).2.orphanedDbFacesList.length
    ∧ (syncWithAws db awsFaces).2.orphanedAwsFaces
        = (syncWithAws db awsFaces).2.orphanedAwsFacesList.length := by
  refine ⟨rfl, fun e => ?_, fun a => ?_, rfl, rfl⟩ <;>
    simp [syncWithAws, List.mem_filter]

/-- Claim C7: deleting a person leaves every `photo_faces` row that referenced the
person present (the face table keeps its length) with `personId = null`,
`awsFaceId = null`, `reviewStatus = "pending"`; deletes all of the person's
`face_encodings` rows and the person row in the same transaction (other encodings
survive); and the outcome does not depend on whether the remote template deletion
succeeded. -/
theorem person_deletion_reverts_faces (db : DB) (pid : ℕ) (cfg r1 r2 : Bool)
    (person : Person) (hp : findPerson db pid = some person) :
    (∀ f ∈ db.faces, f.personId = some pid →
      ({ f with personId := none, awsFaceId := none, isConfirmed := false,
                reviewStatus := "pending" } : Face) ∈ (deletePerson db pid cfg r1).db.faces)
    ∧ (deletePerson db pid cfg r1).db.faces.length = db.faces.length
    ∧ (∀ e ∈ (deletePerson db pid cfg r1).db.encodings, e.personId ≠ some pid)
    ∧ (∀ e ∈ db.encodings, e.personId ≠ some pid →
        e ∈ (deletePerson db pid cfg r1).db.encodings)
    ∧ (∀ q ∈ (deletePerson db pid cfg r1).db.people, q.id ≠ pid)
    ∧ (deletePerson db pid cfg r1).result =
        .ok ((db.encodings.filter (fun e => e.personId == some pid)).length,
             (db.faces.filter (fun f => f.personId == some pid)).length)
    ∧ deletePerson db pid cfg r1 = deletePerson db pid cfg r2 := by
  refine ⟨?_, ?_, ?_, ?_, ?_, ?_, ?_⟩
  · intro f hf hfp
    simp only [deletePerson, hp]
    have hrev : revertFace pid f =
        { f with personId := none, awsFaceId := none, isConfirmed := false,
                 reviewStatus := "pending" } := by
      unfold revertFace
      rw [if_pos (by simp [hfp])]
    exact hrev ▸ List.mem_map_of_mem _ hf
  · simp [deletePerson, hp]
  · intro e he
    simp only [deletePerson, hp] at he
    have := (List.mem_filter.mp he).2
    simpa using this
  · intro e he hne
    simp only [deletePerson, hp]
    exact List.mem_filter.mpr ⟨he, by simpa using hne⟩
  · intro q hq
    simp only [deletePerson, hp] at hq
    have := (List.mem_filter.mp hq).2
    simpa using this
  · simp only [deletePerson, hp]
  · simp only [deletePerson, hp]


unseal Rat.mul Rat.inv Rat.add Rat.sub in
/-- Claim C7 witness: deleting person 7 from a database whose face carries
confidence 82.3 and reviewStatus "confirmed" leaves the face row present with
personId, awsFaceId cleared and reviewStatus "pending", and the outcome is the
same whether the remote deletion succeeded or failed. -/
theorem person_deletion_reverts_faces_witness :
    ({ exFaceAssigned with personId := none, awsFaceId := none, isConfirmed := false,
                            reviewStatus := "pending" } : Face)
      ∈ (deletePerson exDBassigned 7 true true).db.faces
    ∧ deletePerson exDBassigned 7 true true = deletePerson exDBassigned 7 true false := by
  have h := person_deletion_reverts_faces exDBassigned 7 true true false exPerson (by decide)
  exact ⟨h.1 exFaceAssigned (by decide) (by decide), h.2.2.2.2.2.2⟩

/-- Claim C1 counterexample: detection itself produces a reachable state violating
the claimed biconditional — running `processPhoto` on a fresh photo creates a
`photo_faces` row whose `personId` is null while its `awsFaceId`
(remoteTemplateId) is the non-null placeholder "detected-1-0". -/
theorem detection_counterexample_person_template_lockstep :
    ∃ f ∈ (processPhoto exDBdetect 1 [⟨90, none⟩]).faces,
      f.personId = none ∧ f.awsFaceId = some "detected-1-0" := by
  decide

unseal Rat.mul Rat.inv Rat.add Rat.sub in
/-- Claim C3 counterexample: in the existing-personId commit variant
(`assignFace`), a failing template registration does not abort anything — the
call succeeds, the face keeps its new assignment, and no error is surfaced. -/
theorem commit_index_failure_counterexample :
    (assignFace exDB 1 5 true (Except.error "AWS down")).result =
      Except.ok ({ exFace with personId := some 5, isConfirmed := true })
    ∧ (findFace (assignFace exDB 1 5 true (Except.error "AWS down")).db 1).map Face.personId
        = some (some 5)
    ∧ (assignFace exDB 1 5 true (Except.error "AWS down")).db.encodings = [exEncoding] := by
  decide

unseal Rat.mul Rat.inv Rat.add Rat.sub in
/-- Claim C4 counterexample: the existing-personId commit variant (`assignFace`)
performs no conflict check — committing face 2, already assigned to person 7,
to person 9 succeeds, overwrites the assignment, and makes an external indexing
call. -/
theorem double_assignment_counterexample :
    (assignFace exDBassigned 2 9 true (Except.ok ("aws-9", 90))).result =
      Except.ok ({ exFaceAssigned with personId := some 9, isConfirmed := true })
    ∧ (findFace (assignFace exDBassigned 2 9 true (Except.ok ("aws-9", 90))).db 2).map
        Face.personId = some (some 9)
    ∧ (assignFace exDBassigned 2 9 true (Except.ok ("aws-9", 90))).extCalls =
        [.indexFace 9 "k" "face-2-person-9"] := by
  decide

/-! ### Matcher lemmas -/

/-- Specification of the best-overlap loop: a returned candidate comes from the
list (or was the initial accumulator), its recorded ratio is its own overlap
ratio, the best ratio only grows, and it dominates every candidate's ratio. -/
theorem findBestMatchAux_spec (mb : Box) :
    ∀ (cands : List Face) (acc : Option Face × ℚ),
      (∀ g, acc.1 = some g → acc.2 = candRatio mb g) →
      ((∀ g, (findBestMatchAux mb cands acc).1 = some g →
          (g ∈ cands ∨ acc.1 = some g)
          ∧ (findBestMatchAux mb cands acc).2 = candRatio mb g)
       ∧ acc.2 ≤ (findBestMatchAux mb cands acc).2
       ∧ ∀ c ∈ cands, candRatio mb c ≤ (findBestMatchAux mb cands acc).2) := by
  intro cands
  induction cands with
  | nil =>
      intro acc hacc
      exact ⟨fun g hg => ⟨Or.inr hg, hacc g hg⟩, le_refl _, by simp⟩
  | cons f rest ih =>
      intro acc hacc
      have e : findBestMatchAux mb (f :: rest) acc
          = findBestMatchAux mb rest
              (if candRatio mb f > acc.2 then (some f, candRatio mb f) else acc) := rfl
      by_cases hlt : candRatio mb f > acc.2
      · rw [if_pos hlt] at e
        have hacc' : ∀ g, (some f, candRatio mb f).1 = some g →
            (some f, candRatio mb f).2 = candRatio mb g := by
          intro g hg
          cases Option.some.inj hg
          rfl
        obtain ⟨h1, h2, h3⟩ := ih (some f, candRatio mb f) hacc'
        refine ⟨?_, ?_, ?_⟩
        · intro g hg
          rw [e] at hg
          obtain ⟨hmem, hr⟩ := h1 g hg
          refine ⟨?_, by rw [e]; exact hr⟩
          rcases hmem with hm | hm
          · exact Or.inl (List.mem_cons_of_mem _ hm)
          · cases Option.some.inj hm
            exact Or.inl (List.mem_cons_self _ _)
        · rw [e]; exact le_trans (le_of_lt hlt) h2
        · intro c hc
          rw [e]
          rcases List.mem_cons.mp hc with hc' | hc'
          · rw [hc']; exact h2
          · exact h3 c hc'
      · rw [if_neg hlt] at e
        obtain ⟨h1, h2, h3⟩ := ih acc hacc
        refine ⟨?_, by rw [e]; exact h2, ?_⟩
        · intro g hg
          rw [e] at hg
          obtain ⟨hmem, hr⟩ := h1 g hg
          exact ⟨hmem.imp (List.mem_cons_of_mem _) id, by rw [e]; exact hr⟩
        · intro c hc
          rw [e]
          rcases List.mem_cons.mp hc with hc' | hc'
          · rw [hc']; exact le_trans (not_lt.mp hlt) h2
          · exact h3 c hc'

/-- The best overlap never exceeds a bound dominating the accumulator and every
candidate's ratio. -/
theorem findBestMatchAux_le (mb : Box) (b : ℚ) :
    ∀ (cands : List Face) (acc : Option Face × ℚ),
      acc.2 ≤ b → (∀ c ∈ cands, candRatio mb c ≤ b) →
      (findBestMatchAux mb cands acc).2 ≤ b := by
  intro cands
  induction cands with
  | nil => intro acc h _; exact h
  | cons f rest ih =>
      intro acc hacc hall
      have e : findBestMatchAux mb (f :: rest) acc
          = findBestMatchAux mb rest
              (if candRatio mb f > acc.2 then (some f, candRatio mb f) else acc) := rfl
      rw [e]
      apply ih
      · by_cases hlt : candRatio mb f > acc.2
        · rw [if_pos hlt]; exact hall f (List.mem_cons_self _ _)
        · rw [if_neg hlt]; exact hacc
      · intro c hc; exact hall c (List.mem_cons_of_mem _ hc)

/-- When the floor check selects a target, the target is a candidate, its overlap
ratio strictly exceeds 0.5, and no candidate's ratio exceeds the target's. -/
theorem matchTarget_spec (m : Match) (cands : List Face) (tf : Face)
    (h : matchTarget m cands = some tf) :
    tf ∈ cands ∧ 1/2 < matchRatio m tf
      ∧ ∀ c ∈ cands, matchRatio m c ≤ matchRatio m tf := by
  unfold matchTarget at h
  by_cases hgt : (bestFor m cands).2 > 1/2
  case neg => rw [if_neg hgt] at h; exact absurd h (by simp)
  case pos =>
    rw [if_pos hgt] at h
    cases hbox : m.box with
    | none =>
        unfold bestFor at h
        rw [hbox] at h
        exact absurd h (by simp)
    | some mbx =>
        unfold bestFor at h hgt
        rw [hbox] at h hgt
        replace h : (findBestMatchAux mbx cands (none, 0)).1 = some tf := h
        replace hgt : 1/2 < (findBestMatchAux mbx cands (none, 0)).2 := hgt
        obtain ⟨h1, _h2, h3⟩ := findBestMatchAux_spec mbx cands (none, 0)
          (fun g hg => by simp at hg)
        obtain ⟨hmem, hr⟩ := h1 tf h
        have htf : tf ∈ cands := by
          rcases hmem with hm | hm
          · exact hm
          · exact absurd hm (by simp)
        refine ⟨htf, ?_, ?_⟩
        · unfold matchRatio
          rw [hbox]
          show 1/2 < candRatio mbx tf
          rw [← hr]
          exact hgt
        · intro c hc
          unfold matchRatio
          rw [hbox]
          show candRatio mbx c ≤ candRatio mbx tf
          calc candRatio mbx c ≤ (findBestMatchAux mbx cands (none, 0)).2 := h3 c hc
            _ = candRatio mbx tf := hr

/-- When no candidate's ratio exceeds 0.5, the floor check selects nothing. -/
theorem matchTarget_eq_none (m : Match) (cands : List Face)
    (h : ∀ c ∈ cands, matchRatio m c ≤ 1/2) : matchTarget m cands = none := by
  have hle : (bestFor m cands).2 ≤ 1/2 := by
    cases hbox : m.box with
    | none =>
        unfold bestFor
        rw [hbox]
        show ((none : Option Face), (0 : ℚ)).2 ≤ 1/2
        norm_num
    | some mbx =>
        unfold bestFor
        rw [hbox]
        show (findBestMatchAux mbx cands (none, 0)).2 ≤ 1/2
        apply findBestMatchAux_le
        · norm_num
        · intro c hc
          have hc' := h c hc
          unfold matchRatio at hc'
          rw [hbox] at hc'
          exact hc'
  unfold matchTarget
  rw [if_neg (not_lt.mpr hle)]

/-- Membership in the unassigned-candidates query. -/
theorem mem_recogCandidates {photoId : ℕ} {faces : List Face} {f : Face} :
    f ∈ recogCandidates photoId faces ↔
      f ∈ faces ∧ f.photoId = photoId ∧ f.personId = none := by
  unfold recogCandidates
  simp [List.mem_filter, Option.isNone_iff_eq_none]

/-- Each match step either leaves the face table and the update log unchanged, or
assigns exactly one currently-unassigned candidate of the photo and appends the
corresponding update. -/
theorem processMatch_cases (encs : List Encoding) (photoId : ℕ) (st : RecogState)
    (m : Match) :
    ((processMatch encs photoId st m).faces = st.faces
      ∧ (processMatch encs photoId st m).updates = st.updates)
    ∨ ∃ tf pid conf, tf ∈ recogCandidates photoId st.faces
        ∧ (processMatch encs photoId st m).faces
            = st.faces.map (applyAssign tf.id pid conf (recognitionStatus conf))
        ∧ (processMatch encs photoId st m).updates
            = st.updates ++ [⟨tf.id, pid, conf, recognitionStatus conf⟩] := by
  unfold processMatch
  cases hm : m.faceId with
  | none => exact Or.inl ⟨rfl, rfl⟩
  | some fid =>
    simp only []
    by_cases hemp : fid = ""
    · rw [if_pos hemp]; exact Or.inl ⟨rfl, rfl⟩
    · rw [if_neg hemp]
      cases hl : lookupPersonId encs fid with
      | none => exact Or.inl ⟨rfl, rfl⟩
      | some pid =>
        simp only []
        by_cases h0 : pid = 0
        · rw [if_pos h0]; exact Or.inl ⟨rfl, rfl⟩
        · rw [if_neg h0]
          cases ht : matchTarget m (recogCandidates photoId st.faces) with
          | none => refine Or.inl ⟨?_, ?_⟩ <;> simp only [ht]
          | some tf =>
              refine Or.inr ⟨tf, pid, m.similarity.getD 0,
                (matchTarget_spec m _ tf ht).1, ?_, ?_⟩ <;> simp only [ht]

/-- A match that fails the pre-classification guards leaves the loop state
entirely unchanged. -/
theorem processMatch_not_resolving (encs : List Encoding) (photoId : ℕ)
    (st : RecogState) (m : Match) (h : resolvesKnownPerson encs m = false) :
    processMatch encs photoId st m = st := by
  unfold resolvesKnownPerson at h
  unfold processMatch
  cases hm : m.faceId with
  | none => rfl
  | some fid =>
      rw [hm] at h
      simp only [] at h ⊢
      by_cases hemp : fid = ""
      · rw [if_pos hemp]
      · rw [if_neg hemp] at h ⊢
        cases hl : lookupPersonId encs fid with
        | none => rfl
        | some pid =>
            simp only [] at h ⊢
            rw [hl] at h
            simp only [] at h
            have h0 : pid = 0 := by simpa using h
            rw [if_pos h0]

/-- A match that passes the guards contributes exactly one record to
`recognitionResults`/`manualReviewQueue` and at most one face update. -/
theorem processMatch_resolving_counts (encs : List Encoding) (photoId : ℕ)
    (st : RecogState) (m : Match) (h : resolvesKnownPerson encs m = true) :
    ((processMatch encs photoId st m).results.length
        + (processMatch encs photoId st m).reviewQueue.length
      = st.results.length + st.reviewQueue.length + 1)
    ∧ (processMatch encs photoId st m).updates.length ≤ st.updates.length + 1 := by
  unfold resolvesKnownPerson at h
  unfold processMatch
  cases hm : m.faceId with
  | none => rw [hm] at h; cases h
  | some fid =>
      rw [hm] at h
      simp only [] at h ⊢
      by_cases hemp : fid = ""
      · rw [if_pos hemp] at h; cases h
      · rw [if_neg hemp] at h ⊢
        cases hl : lookupPersonId encs fid with
        | none => rw [hl] at h; cases h
        | some pid =>
            simp only [] at h ⊢
            rw [hl] at h
            simp only [] at h
            have h0 : ¬ pid = 0 := by simpa using h
            rw [if_neg h0]
            cases ht : matchTarget m (recogCandidates photoId st.faces) <;>
              by_cases hnr : matchNeedsReview (m.similarity.getD 0) = true <;>
                simp [ht, hnr] <;> omega

/-- Accumulated result counts of a recognition pass: one record per resolving
match, and at most one face update per resolving match. -/
theorem recog_counts_foldl (encs : List Encoding) (photoId : ℕ) :
    ∀ (ms : List Match) (st : RecogState),
      ((ms.foldl (processMatch encs photoId) st).results.length
          + (ms.foldl (processMatch encs photoId) st).reviewQueue.length
        = st.results.length + st.reviewQueue.length
            + (ms.filter (resolvesKnownPerson encs)).length)
      ∧ (ms.foldl (processMatch encs photoId) st).updates.length
          ≤ st.updates.length + (ms.filter (resolvesKnownPerson encs)).length := by
  intro ms
  induction ms with
  | nil => intro st; simp
  | cons m t ih =>
      intro st
      cases hr : resolvesKnownPerson encs m with
      | false =>
          have e := processMatch_not_resolving encs photoId st m hr
          simp only [List.foldl_cons, e, List.filter_cons, hr]
          exact ih st
      | true =>
          obtain ⟨e1, e2⟩ := processMatch_resolving_counts encs photoId st m hr
          obtain ⟨f1, f2⟩ := ih (processMatch encs photoId st m)
          simp only [List.foldl_cons, List.filter_cons, hr, if_true, List.length_cons]
          constructor
          · omega
          · omega

/-- The per-match loop preserves `RecogInv`. -/
theorem recogInv_step (encs : List Encoding) (photoId : ℕ) (fs0 : List Face)
    (hids : (fs0.map Face.id).Nodup) (st : RecogState) (m : Match)
    (hinv : RecogInv fs0 st) : RecogInv fs0 (processMatch encs photoId st m) := by
  obtain ⟨i1, i2, i3, i4, i5⟩ := hinv
  rcases processMatch_cases encs photoId st m with ⟨hf, hu⟩ | ⟨tf, pid, conf, htf, hf, hu⟩
  · refine ⟨?_, ?_, ?_, ?_, ?_⟩ <;> simp only [hf, hu]
    · exact i1
    · exact i2
    · exact i3
    · exact i4
    · exact i5
  · obtain ⟨htf_mem, _htf_photo, htf_none⟩ := mem_recogCandidates.mp htf
    have hinj : ∀ a ∈ fs0, ∀ b ∈ fs0, a.id = b.id → a = b :=
      fun a ha b hb he => List.inj_on_of_nodup_map hids ha hb he
    have htf0 : tf ∈ fs0 := i2 tf htf_mem htf_none
    refine ⟨?_, ?_, ?_, ?_, ?_⟩
    · -- already-assigned original rows survive unchanged
      intro f0 h0 hs
      have hne : ¬ f0.id = tf.id := by
        intro he
        have heq := hinj f0 h0 tf htf0 he
        rw [heq, htf_none] at hs
        cases hs
      have hg : applyAssign tf.id pid conf (recognitionStatus conf) f0 = f0 := by
        unfold applyAssign
        rw [if_neg (by simp [hne])]
      rw [hf]
      exact hg ▸ List.mem_map_of_mem _ (i1 f0 h0 hs)
    · -- currently-unassigned rows are original rows
      intro f hfmem hnone
      rw [hf] at hfmem
      obtain ⟨f1, hf1, rfl⟩ := List.mem_map.mp hfmem
      by_cases he : (f1.id == tf.id) = true
      · exfalso
        unfold applyAssign at hnone
        rw [if_pos he] at hnone
        cases hnone
      · have hg : applyAssign tf.id pid conf (recognitionStatus conf) f1 = f1 := by
          unfold applyAssign
          rw [if_neg he]
        rw [hg] at hnone ⊢
        exact i2 f1 hf1 hnone
    · -- no face is updated twice
      have hnotin : ¬ tf.id ∈ st.updates.map RecogUpdate.faceId := by
        intro hmem
        obtain ⟨u, hu', he⟩ := List.mem_map.mp hmem
        have := i5 u hu' tf htf_mem he.symm
        rw [htf_none] at this
        cases this
      rw [hu, List.map_append]
      simp [List.nodup_append, i3, hnotin]
    · -- every update hit an initially-unassigned row
      rw [hu]
      intro u hu'
      rcases List.mem_append.mp hu' with hold | hnew
      · exact i4 u hold
      · rw [List.mem_singleton] at hnew
        subst hnew
        exact ⟨tf, htf0, rfl, htf_none⟩
    · -- every updated face is assigned from then on
      rw [hf, hu]
      intro u hu' f hfmem he
      obtain ⟨f1, hf1, rfl⟩ := List.mem_map.mp hfmem
      by_cases hid1 : (f1.id == tf.id) = true
      · unfold applyAssign
        rw [if_pos hid1]
        rfl
      · have hg : applyAssign tf.id pid conf (recognitionStatus conf) f1 = f1 := by
          unfold applyAssign
          rw [if_neg hid1]
        rw [hg] at he ⊢
        rcases List.mem_append.mp hu' with hold | hnew
        · exact i5 u hold f1 hf1 he
        · rw [List.mem_singleton] at hnew
          subst hnew
          exact absurd (by simpa using he) (by simpa using hid1)

/-- `RecogInv` holds after folding the per-match loop over any match list. -/
theorem recogInv_foldl (encs : List Encoding) (photoId : ℕ) (fs0 : List Face)
    (hids : (fs0.map Face.id).Nodup) :
    ∀ (ms : List Match) (st : RecogState), RecogInv fs0 st →
      RecogInv fs0 (ms.foldl (processMatch encs photoId) st) := by
  intro ms
  induction ms with
  | nil => intro st h; exact h
  | cons m t ih =>
      intro st h
      exact ih _ (recogInv_step encs photoId fs0 hids st m h)

/-- The update log of a recognition pass only carries statuses computed by the
confidence if-chain. -/
theorem recog_status_foldl (encs : List Encoding) (photoId : ℕ) :
    ∀ (ms : List Match) (st : RecogState),
      (∀ u ∈ st.updates, u.status = recognitionStatus u.confidence) →
      ∀ u ∈ (ms.foldl (processMatch encs photoId) st).updates,
        u.status = recognitionStatus u.confidence := by
  intro ms
  induction ms with
  | nil => intro st h; exact h
  | cons m t ih =>
      intro st h
      apply ih
      intro u hu
      rcases processMatch_cases encs photoId st m with ⟨_, hupd⟩ | ⟨tf, pid, conf, _, _, hupd⟩
      · rw [hupd] at hu; exact h u hu
      · rw [hupd] at hu
        rcases List.mem_append.mp hu with hold | hnew
        · exact h u hold
        · rw [List.mem_singleton] at hnew
          subst hnew
          rfl

/-- The face table after a recognition pass carries the same `awsFaceId` (and id)
per row as before the pass: recognition never writes `awsFaceId`. -/
theorem recog_aws_preserved (encs : List Encoding) (photoId : ℕ) :
    ∀ (ms : List Match) (st : RecogState) (fs0 : List Face),
      (∀ f1 ∈ st.faces, ∃ f0 ∈ fs0, f1.awsFaceId = f0.awsFaceId ∧ f1.id = f0.id) →
      ∀ f1 ∈ (ms.foldl (processMatch encs photoId) st).faces,
        ∃ f0 ∈ fs0, f1.awsFaceId = f0.awsFaceId ∧ f1.id = f0.id := by
  intro ms
  induction ms with
  | nil => intro st fs0 h; exact h
  | cons m t ih =>
      intro st fs0 h
      apply ih
      intro f1 hf1
      rcases processMatch_cases encs photoId st m with ⟨hface, _⟩ | ⟨tf, pid, conf, _, hface, _⟩
      · rw [hface] at hf1; exact h f1 hf1
      · rw [hface] at hf1
        obtain ⟨f2, hf2, rfl⟩ := List.mem_map.mp hf1
        obtain ⟨f0, h0, ha, hi⟩ := h f2 hf2
        exact ⟨f0, h0, by rw [applyAssign_aws]; exact ha, by rw [applyAssign_id]; exact hi⟩

/-- The confidence if-chain yields "confirmed" exactly at or above 75. -/
theorem recognitionStatus_confirmed_iff (c : ℚ) :
    recognitionStatus c = "confirmed" ↔ 75 ≤ c := by
  unfold recognitionStatus conservativeThreshold faceMatchThreshold
  split_ifs with h1 h2
  · simp [h1]
  · constructor
    · intro hc; exact absurd hc (by decide)
    · intro hc; exact absurd hc h1
  · constructor
    · intro hc; exact absurd hc (by decide)
    · intro hc; exact absurd hc h1

/-- The confidence if-chain yields "review" exactly at or above 60 and below 75. -/
theorem recognitionStatus_review_iff (c : ℚ) :
    recognitionStatus c = "review" ↔ 60 ≤ c ∧ c < 75 := by
  unfold recognitionStatus conservativeThreshold faceMatchThreshold
  split_ifs with h1 h2
  · constructor
    · intro hc; exact absurd hc (by decide)
    · rintro ⟨_, hlt⟩; exact absurd h1 (not_le.mpr hlt)
  · constructor
    · intro _; exact ⟨h2, not_le.mp h1⟩
    · intro _; rfl
  · constructor
    · intro hc; exact absurd hc (by decide)
    · rintro ⟨hge, _⟩; exact absurd hge h2

/-- Claim C2: for a search match that resolves to a known person, the matcher
computes intersection-over-own-area against every still-unassigned face of the
photo; when it updates a face, that face is an unassigned candidate whose ratio
strictly exceeds the 0.5 floor and is maximal among all candidates; and when no
candidate's ratio exceeds 0.5 (e.g. a best ratio of 0.4), no face row is updated
and the face table is unchanged. -/
theorem matcher_overlap_floor (encs : List Encoding) (photoId : ℕ) (st : RecogState)
    (m : Match) (fid : String) (pid : ℕ)
    (hfid : m.faceId = some fid) (hne : ¬ fid = "")
    (hl : lookupPersonId encs fid = some pid) (h0 : ¬ pid = 0) :
    (∀ u, (processMatch encs photoId st m).updates = st.updates ++ [u] →
      ∃ tf, tf ∈ recogCandidates photoId st.faces ∧ u.faceId = tf.id
        ∧ 1/2 < matchRatio m tf
        ∧ ∀ c ∈ recogCandidates photoId st.faces, matchRatio m c ≤ matchRatio m tf)
    ∧ ((∀ c ∈ recogCandidates photoId st.faces, matchRatio m c ≤ 1/2) →
        (processMatch encs photoId st m).faces = st.faces
        ∧ (processMatch encs photoId st m).updates = st.updates) := by
  unfold processMatch
  rw [hfid]
  simp only []
  rw [if_neg hne, hl]
  simp only []
  rw [if_neg h0]
  constructor
  · intro u hu
    cases ht : matchTarget m (recogCandidates photoId st.faces) with
    | none =>
        simp only [ht] at hu
        simp at hu
    | some tf =>
        simp only [ht] at hu
        obtain ⟨hmem, hrat, hbound⟩ := matchTarget_spec m _ tf ht
        have hu' : (⟨tf.id, pid, m.similarity.getD 0,
            recognitionStatus (m.similarity.getD 0)⟩ : RecogUpdate) = u := by
          simpa using hu
        subst hu'
        exact ⟨tf, hmem, rfl, hrat, hbound⟩
  · intro hle
    have ht := matchTarget_eq_none m _ hle
    constructor <;> simp only [ht]

unseal Rat.mul Rat.inv Rat.add Rat.sub in
/-- Claim C2 witness: a match whose only candidate overlaps at ratio 0.4 (below
the 0.5 floor) updates no face row and leaves the face table unchanged. -/
theorem matcher_overlap_floor_witness :
    (processMatch [exEncoding] 1 exState exMatchLow).faces = exState.faces
    ∧ (processMatch [exEncoding] 1 exState exMatchLow).updates = exState.updates :=
  (matcher_overlap_floor [exEncoding] 1 exState exMatchLow "aws-1" 7
    (by decide) (by decide) (by decide) (by decide)).2 (by decide)

/-- Claim C5: within one recognition pass, the update log binds pairwise-distinct
faces, every bound face was unassigned (personId null) when the pass began, and
every face row that was already assigned survives the pass unchanged. -/
theorem recognition_no_double_binding (db : DB) (photoId : ℕ) (ms : List Match)
    (hids : (db.faces.map Face.id).Nodup) :
    ((processPhotoRecognition db photoId ms).updates.map RecogUpdate.faceId).Nodup
    ∧ (∀ u ∈ (processPhotoRecognition db photoId ms).updates,
        ∃ f0 ∈ db.faces, f0.id = u.faceId ∧ f0.personId = none)
    ∧ (∀ f0 ∈ db.faces, f0.personId.isSome →
        f0 ∈ (processPhotoRecognition db photoId ms).db.faces) := by
  have hinit : RecogInv db.faces (initialRecogState db) := by
    unfold RecogInv initialRecogState
    exact ⟨fun f0 h _ => h, fun f h _ => h, by simp, by simp, by simp⟩
  have hfold := recogInv_foldl db.encodings photoId db.faces hids ms
    (initialRecogState db) hinit
  unfold RecogInv at hfold
  obtain ⟨i1, i2, i3, i4, i5⟩ := hfold
  exact ⟨i3, i4, fun f0 h0 hs => i1 f0 h0 hs⟩

unseal Rat.mul Rat.inv Rat.add Rat.sub in
/-- Claim C5 witness: the pass over the one-face example binds face 1 exactly
once, and that face was unassigned at the start of the pass. -/
theorem recognition_no_double_binding_witness :
    ((processPhotoRecognition exDB 1 [exMatchHigh]).updates.map RecogUpdate.faceId).Nodup
    ∧ ∃ f0 ∈ exDB.faces, f0.id = 1 ∧ f0.personId = none := by
  have h := recognition_no_double_binding exDB 1 [exMatchHigh] (by decide)
  exact ⟨h.1, h.2.1 ⟨1, 7, 80, "confirmed"⟩ (by decide)⟩

/-- Claim C6: every face update issued by a recognition pass carries
reviewStatus "confirmed" exactly when the match's similarity is at least 75, and
"review" exactly when the similarity is at least 60 and below 75. -/
theorem recognition_confidence_tiers (db : DB) (photoId : ℕ) (ms : List Match)
    (u : RecogUpdate) (hu : u ∈ (processPhotoRecognition db photoId ms).updates) :
    (u.status = "confirmed" ↔ 75 ≤ u.confidence)
    ∧ (u.status = "review" ↔ 60 ≤ u.confidence ∧ u.confidence < 75) := by
  have hs : u.status = recognitionStatus u.confidence :=
    recog_status_foldl db.encodings photoId ms (initialRecogState db)
      (by simp [initialRecogState]) u hu
  rw [hs]
  exact ⟨recognitionStatus_confirmed_iff _, recognitionStatus_review_iff _⟩

unseal Rat.mul Rat.inv Rat.add Rat.sub in
/-- Claim C6 witness: the update bound by the similarity-80 example match carries
reviewStatus "confirmed", consistent with both tier characterizations. -/
theorem recognition_confidence_tiers_witness :
    ((⟨1, 7, 80, "confirmed"⟩ : RecogUpdate).status = "confirmed"
        ↔ (75:ℚ) ≤ (⟨1, 7, 80, "confirmed"⟩ : RecogUpdate).confidence)
    ∧ ((⟨1, 7, 80, "confirmed"⟩ : RecogUpdate).status = "review"
        ↔ (60:ℚ) ≤ (⟨1, 7, 80, "confirmed"⟩ : RecogUpdate).confidence
          ∧ (⟨1, 7, 80, "confirmed"⟩ : RecogUpdate).confidence < 75) :=
  recognition_confidence_tiers exDB 1 [exMatchHigh] ⟨1, 7, 80, "confirmed"⟩ (by decide)

unseal Rat.mul Rat.inv Rat.add Rat.sub in
/-- Claim C10: a recognition pass counts every match that resolves to a known
person in `facesRecognized + facesNeedingReview` whether or not it bound a face,
the number of face updates never exceeds that count, and in the 0.4-overlap
example the pass reports one face recognized while updating no face row — so the
reported count can exceed the number of faces actually assigned. -/
theorem recognition_counts_resolved_matches (db : DB) (photoId : ℕ) (ms : List Match) :
    ((processPhotoRecognition db photoId ms).result.facesRecognized
        + (processPhotoRecognition db photoId ms).result.facesNeedingReview
      = (ms.filter (resolvesKnownPerson db.encodings)).length)
    ∧ (processPhotoRecognition db photoId ms).updates.length
        ≤ (ms.filter (resolvesKnownPerson db.encodings)).length
    ∧ ((processPhotoRecognition exDB 1 [exMatchLow]).result.facesRecognized = 1
        ∧ (processPhotoRecognition exDB 1 [exMatchLow]).updates = []) := by
  obtain ⟨h1, h2⟩ := recog_counts_foldl db.encodings photoId ms (initialRecogState db)
  refine ⟨?_, ?_, by decide, by decide⟩
  · simpa [processPhotoRecognition, initialRecogState] using h1
  · simpa [processPhotoRecognition, initialRecogState] using h2

/-- After a successful new-name commit with indexing, the face row carries the new
person id, `isConfirmed`, and the real AWS face id. -/
theorem commit_success_face_row (db : DB) (nm : String) (fid : ℕ) (face : Face)
    (photo : Photo) (t : String) (c : ℚ)
    (hf : findFace db fid = some face) (hun : face.personId = none)
    (hph : findPhoto db face.photoId = some photo) :
    findFace (createPersonWithFace db nm fid true (.ok (t, c))).db fid =
      some { face with personId := some (nextPersonId db), isConfirmed := true,
                       awsFaceId := some t } := by
  have hid : (face.id == fid) = true := by
    unfold findFace at hf
    have h2 := List.find?_some hf
    exact h2
  simp only [createPersonWithFace, hf, hun, hph]
  unfold findFace
  rw [findFace_map _ _ (setFaceAws_id fid t),
    findFace_map _ _ (setFacePerson_id fid (nextPersonId db))]
  unfold findFace at hf
  rw [hf]
  simp [setFacePerson, setFaceAws, hid]

/-- Claim C3 (amended): a failed template registration aborts the whole local
transaction only in the new-name variant (`createPersonWithFace`), which leaves
the database unchanged and surfaces the specific error; the existing-personId
variant (`assignFace`) commits the assignment before indexing, swallows the
indexing failure, keeps the assignment, creates no encoding, and returns
success. -/
theorem commit_index_failure_amended (db : DB) (name : String) (faceId pid : ℕ)
    (face : Face) (photo : Photo) (e : String)
    (hf : findFace db faceId = some face) (hun : face.personId = none)
    (hph : findPhoto db face.photoId = some photo) :
    ((createPersonWithFace db name faceId true (.error e)).db = db
      ∧ (createPersonWithFace db name faceId true (.error e)).result =
          .error ⟨.internal, "Failed to index face for recognition: " ++ e⟩)
    ∧ ((assignFace db faceId pid true (.error e)).result =
          .ok { face with personId := some pid, isConfirmed := true }
      ∧ findFace (assignFace db faceId pid true (.error e)).db faceId =
          some { face with personId := some pid, isConfirmed := true }
      ∧ (assignFace db faceId pid true (.error e)).db.encodings = db.encodings) := by
  have hid : (face.id == faceId) = true := by
    unfold findFace at hf
    have h2 := List.find?_some hf
    exact h2
  refine ⟨⟨?_, ?_⟩, ?_, ?_, ?_⟩
  · simp [createPersonWithFace, hf, hun, hph]
  · simp [createPersonWithFace, hf, hun, hph]
  · simp [assignFace, hf, hph]
  · simp only [assignFace, hf, hph]
    unfold findFace
    rw [findFace_map _ _ (setFacePerson_id faceId pid)]
    unfold findFace at hf
    rw [hf]
    simp [setFacePerson, hid]
  · simp [assignFace, hf, hph]

unseal Rat.mul Rat.inv Rat.add Rat.sub in
/-- Claim C3 witness: a failing registration aborts the new-name commit on the
example database, while the existing-personId variant keeps its encodings
unchanged (the assignment itself persists, per the counterexample). -/
theorem commit_index_failure_amended_witness :
    (createPersonWithFace exDB "Bob" 1 true (Except.error "oops")).db = exDB
    ∧ (createPersonWithFace exDB "Bob" 1 true (Except.error "oops")).result =
        Except.error ⟨.internal, "Failed to index face for recognition: " ++ "oops"⟩
    ∧ (assignFace exDB 1 5 true (Except.error "oops")).db.encodings = exDB.encodings := by
  have h := commit_index_failure_amended exDB "Bob" 1 5 exFace exPhoto "oops"
    (by decide) (by decide) (by decide)
  exact ⟨h.1.1, h.1.2, h.2.2.2⟩

/-- Claim C4 (amended): only the new-name variant rejects a commit on an
already-assigned face — with a conflict error, before any external call, leaving
the database unchanged; two new-name commits of the same face leave exactly one
new Person and one new FaceEncoding (the second returns the conflict).  The
existing-personId variant performs no such check (see its counterexample). -/
theorem double_assignment_amended (db : DB) (name1 name2 : String) (faceId : ℕ)
    (face : Face) (photo : Photo) (t : String) (c : ℚ) (cfg2 : Bool)
    (io2 : Except String (String × ℚ))
    (hf : findFace db faceId = some face) (hun : face.personId = none)
    (hph : findPhoto db face.photoId = some photo) :
    (∀ (db' : DB) (nm : String) (fid q : ℕ) (f' : Face) (cfg : Bool)
        (io : Except String (String × ℚ)),
        findFace db' fid = some f' → f'.personId = some q →
        createPersonWithFace db' nm fid cfg io =
          ⟨db', .error ⟨.badRequest,
            "Face is already assigned to person ID " ++ toString q⟩, []⟩)
    ∧ (createPersonWithFace (createPersonWithFace db name1 faceId true (.ok (t, c))).db
          name2 faceId cfg2 io2).result =
        .error ⟨.badRequest,
          "Face is already assigned to person ID " ++ toString (nextPersonId db)⟩
    ∧ (createPersonWithFace (createPersonWithFace db name1 faceId true (.ok (t, c))).db
          name2 faceId cfg2 io2).db =
        (createPersonWithFace db name1 faceId true (.ok (t, c))).db
    ∧ (createPersonWithFace (createPersonWithFace db name1 faceId true (.ok (t, c))).db
          name2 faceId cfg2 io2).extCalls = []
    ∧ (createPersonWithFace db name1 faceId true (.ok (t, c))).db.people.length
        = db.people.length + 1
    ∧ (createPersonWithFace db name1 faceId true (.ok (t, c))).db.encodings.length
        = db.encodings.length + 1 := by
  have hconflict : ∀ (db' : DB) (nm : String) (fid q : ℕ) (f' : Face) (cfg : Bool)
      (io : Except String (String × ℚ)),
      findFace db' fid = some f' → f'.personId = some q →
      createPersonWithFace db' nm fid cfg io =
        ⟨db', .error ⟨.badRequest,
          "Face is already assigned to person ID " ++ toString q⟩, []⟩ := by
    intro db' nm fid q f' cfg io h1 h2
    simp [createPersonWithFace, h1, h2]
  have hrow := commit_success_face_row db name1 faceId face photo t c hf hun hph
  refine ⟨hconflict, ?_, ?_, ?_, ?_, ?_⟩
  · rw [hconflict _ name2 faceId (nextPersonId db) _ cfg2 io2 hrow rfl]
  · rw [hconflict _ name2 faceId (nextPersonId db) _ cfg2 io2 hrow rfl]
  · rw [hconflict _ name2 faceId (nextPersonId db) _ cfg2 io2 hrow rfl]
  · simp [createPersonWithFace, hf, hun, hph]
  · simp [createPersonWithFace, hf, hun, hph]

unseal Rat.mul Rat.inv Rat.add Rat.sub in
/-- Claim C4 witness: after a first successful new-name commit of face 1, a second
new-name commit of the same face returns the conflict error and exactly one new
person row was created. -/
theorem double_assignment_amended_witness :
    (createPersonWithFace
        (createPersonWithFace exDB "Alice" 1 true (Except.ok ("aws-2", 90))).db
        "Bob" 1 true (Except.ok ("aws-3", 90))).result =
      Except.error ⟨.badRequest,
        "Face is already assigned to person ID " ++ toString (nextPersonId exDB)⟩
    ∧ (createPersonWithFace exDB "Alice" 1 true (Except.ok ("aws-2", 90))).db.people.length
        = exDB.people.length + 1 := by
  have h := double_assignment_amended exDB "Alice" "Bob" 1 exFace exPhoto "aws-2" 90 true
    (Except.ok ("aws-3", 90)) (by decide) (by decide) (by decide)
  exact ⟨h.2.1, h.2.2.2.2.1⟩

/-- Claim C1 (amended): the claimed biconditional does not hold — detection
creates every new face with null personId and a non-null placeholder awsFaceId,
and recognition never writes awsFaceId at all.  What does hold in lockstep: a
successful indexing commit sets personId and awsFaceId non-null together, and
person deletion clears both to null together. -/
theorem person_template_lockstep_amended :
    (∀ (db : DB) (pid : ℕ) (inputs : List DetectedFaceInput) (f : Face),
        f ∈ (processPhoto db pid inputs).faces →
        f ∈ db.faces ∨ (f.personId = none ∧ f.awsFaceId.isSome))
    ∧ (∀ (db : DB) (pid : ℕ) (ms : List Match),
        ∀ f1 ∈ (processPhotoRecognition db pid ms).db.faces,
          ∃ f0 ∈ db.faces, f1.awsFaceId = f0.awsFaceId ∧ f1.id = f0.id)
    ∧ (∀ (db : DB) (nm : String) (fid : ℕ) (face : Face) (photo : Photo)
        (t : String) (c : ℚ),
        findFace db fid = some face → face.personId = none →
        findPhoto db face.photoId = some photo →
        findFace (createPersonWithFace db nm fid true (.ok (t, c))).db fid =
          some { face with personId := some (nextPersonId db), isConfirmed := true,
                           awsFaceId := some t })
    ∧ (∀ (db : DB) (pid : ℕ) (cfg r : Bool) (person : Person) (f0 : Face),
        findPerson db pid = some person → f0 ∈ db.faces → f0.personId = some pid →
        ({ f0 with personId := none, awsFaceId := none, isConfirmed := false,
                   reviewStatus := "pending" } : Face)
          ∈ (deletePerson db pid cfg r).db.faces) := by
  refine ⟨?_, ?_, ?_, ?_⟩
  · intro db pid inputs f hf
    simp only [processPhoto] at hf
    rcases List.mem_append.mp hf with h | h
    · exact Or.inl h
    · right
      obtain ⟨pr, _, rfl⟩ := List.mem_map.mp h
      exact ⟨rfl, rfl⟩
  · intro db pid ms f1 hf1
    exact recog_aws_preserved db.encodings pid ms (initialRecogState db) db.faces
      (fun f hf => ⟨f, hf, rfl, rfl⟩) f1 hf1
  · intro db nm fid face photo t c hf hun hph
    exact commit_success_face_row db nm fid face photo t c hf hun hph
  · intro db pid cfg r person f0 hp hf0 hpid
    simp only [deletePerson, hp]
    have hrev : revertFace pid f0 =
        { f0 with personId := none, awsFaceId := none, isConfirmed := false,
                  reviewStatus := "pending" } := by
      unfold revertFace
      rw [if_pos (by simp [hpid])]
    exact hrev ▸ List.mem_map_of_mem _ hf0

unseal Rat.mul Rat.inv Rat.add Rat.sub in
/-- Claim C1 (amended) witness: a successful indexing commit on the example
database sets personId and the real AWS face id together on the face row. -/
theorem person_template_lockstep_amended_witness :
    findFace (createPersonWithFace exDB "Alice" 1 true (Except.ok ("aws-2", 90))).db 1 =
      some
        { exFace with personId := some (nextPersonId exDB), isConfirmed := true,
                      awsFaceId := some "aws-2" } :=
  person_template_lockstep_amended.2.2.1 exDB "Alice" 1 exFace exPhoto "aws-2" 90
    (by decide) (by decide) (by decide)

/-- Row-level view of `setProcessingAttempts` through `findPhoto`. -/
theorem findPhoto_setProcessingAttempts (db : DB) (x n : ℕ) (p : Photo)
    (hp : findPhoto db x = some p) :
    findPhoto (setProcessingAttempts db x n) x =
      some { p with processingAttempts := n } := by
  have hid : (p.id == x) = true := by
    unfold findPhoto at hp
    have h2 := List.find?_some hp
    exact h2
  unfold setProcessingAttempts findPhoto
  rw [findPhoto_map _ _ (fun q => by split <;> rfl)]
  unfold findPhoto at hp
  rw [hp, Option.map_some']
  rw [if_pos hid]

/-- Row-level view of `markProcessingFailed` through `findPhoto`. -/
theorem findPhoto_markProcessingFailed (db : DB) (x : ℕ) (msg : String) (p : Photo)
    (hp : findPhoto db x = some p) :
    findPhoto (markProcessingFailed db x msg) x =
      some { p with processingStatus := "failed", lastError := some msg } := by
  have hid : (p.id == x) = true := by
    unfold findPhoto at hp
    have h2 := List.find?_some hp
    exact h2
  unfold markProcessingFailed findPhoto
  rw [findPhoto_map _ _ (fun q => by split <;> rfl)]
  unfold findPhoto at hp
  rw [hp, Option.map_some']
  rw [if_pos hid]

/-- Row-level view of the photo update in `processPhoto` through `findPhoto`. -/
theorem findPhoto_processPhoto (db : DB) (x : ℕ) (detected : List DetectedFaceInput)
    (p : Photo) (hp : findPhoto db x = some p) :
    findPhoto (processPhoto db x detected) x =
      some { p with processingStatus := "completed", faceCount := detected.length } := by
  have hid : (p.id == x) = true := by
    unfold findPhoto at hp
    have h2 := List.find?_some hp
    exact h2
  unfold processPhoto findPhoto
  rw [findPhoto_map _ _ (fun q => by split <;> rfl)]
  unfold findPhoto at hp
  rw [hp, Option.map_some']
  rw [if_pos hid]

/-- Claim C8 counterexample: a detection run that throws on the first two attempts
and succeeds on the third performs its retries with no backoff delay at all —
the computed base delay is 2000 ms, but the sleeping branch is only reachable
after a non-thrown unsuccessful result, which `processPhoto` never produces. -/
theorem detection_retry_counterexample :
    (robustPhotoProcessing exDBdetect 1 [.err "e1", .err "e2", .ok []]).attemptsMade = 3
    ∧ (robustPhotoProcessing exDBdetect 1 [.err "e1", .err "e2", .ok []]).sleeps = []
    ∧ backoffMs 1 = 2000 := by
  decide

/-- Claim C8 (amended): detection makes at most 3 attempts; a run that throws
twice then succeeds ends with processingStatus "completed" and
processingAttempts 2 (the failed attempts), having slept no backoff delay; after
a third thrown attempt the run persists processingStatus "failed" with the error
message and processingAttempts 3, rethrows, and makes no further attempt even
when more outcomes are available. -/
theorem detection_retry_amended (db : DB) (photoId : ℕ) (p : Photo)
    (e1 e2 e3 : String) (faces extra : List DetectedFaceInput)
    (hp : findPhoto db photoId = some p) :
    ((robustPhotoProcessing db photoId [.err e1, .err e2, .ok faces]).attemptsMade = 3
      ∧ (robustPhotoProcessing db photoId [.err e1, .err e2, .ok faces]).sleeps = []
      ∧ (robustPhotoProcessing db photoId [.err e1, .err e2, .ok faces]).result =
          .ok faces.length
      ∧ findPhoto (robustPhotoProcessing db photoId [.err e1, .err e2, .ok faces]).db
          photoId =
        some { p with processingStatus := "completed", faceCount := faces.length,
                      processingAttempts := 2 })
    ∧ ((robustPhotoProcessing db photoId
          [.err e1, .err e2, .err e3, .ok extra]).attemptsMade = 3
      ∧ (robustPhotoProcessing db photoId
          [.err e1, .err e2, .err e3, .ok extra]).result = .error e3
      ∧ findPhoto (robustPhotoProcessing db photoId
          [.err e1, .err e2, .err e3, .ok extra]).db photoId =
        some { p with processingStatus := "failed", lastError := some e3,
                      processingAttempts := 3 }) := by
  have hrunOk : robustPhotoProcessing db photoId [.err e1, .err e2, .ok faces] =
      ⟨processPhoto (setProcessingAttempts (setProcessingAttempts db photoId 1) photoId 2)
          photoId faces,
       .ok faces.length, 3, []⟩ := by
    simp [robustPhotoProcessing, robustLoop]
  have hrunBad : robustPhotoProcessing db photoId [.err e1, .err e2, .err e3, .ok extra] =
      ⟨markProcessingFailed
          (setProcessingAttempts (setProcessingAttempts (setProcessingAttempts db photoId 1)
            photoId 2) photoId 3) photoId e3,
       .error e3, 3, []⟩ := by
    simp [robustPhotoProcessing, robustLoop]
  have q1 := findPhoto_setProcessingAttempts db photoId 1 p hp
  have q2 := findPhoto_setProcessingAttempts _ photoId 2 _ q1
  have q3 := findPhoto_processPhoto _ photoId faces _ q2
  have r3 := findPhoto_setProcessingAttempts _ photoId 3 _ q2
  have r4 := findPhoto_markProcessingFailed _ photoId e3 _ r3
  refine ⟨⟨?_, ?_, ?_, ?_⟩, ?_, ?_, ?_⟩
  · rw [hrunOk]
  · rw [hrunOk]
  · rw [hrunOk]
  · rw [hrunOk]
    exact q3
  · rw [hrunBad]
  · rw [hrunBad]
  · rw [hrunBad]
    exact r4

/-- Claim C8 (amended) witness: on the example photo, the fail-fail-succeed run
returns ok and the fail-fail-fail run persists the failed status with the last
error and 3 recorded attempts. -/
theorem detection_retry_amended_witness :
    (robustPhotoProcessing exDBdetect 1 [.err "a", .err "b", .ok []]).result = Except.ok 0
    ∧ findPhoto (robustPhotoProcessing exDBdetect 1
        [.err "a", .err "b", .err "c", .ok []]).db 1 =
      some
        { (⟨1, "k", "pending", 0, 0, none⟩ : Photo) with
          processingStatus := "failed", lastError := some "c",
          processingAttempts := 3 } := by
  have h := detection_retry_amended exDBdetect 1 ⟨1, "k", "pending", 0, 0, none⟩
    "a" "b" "c" [] [] (by decide)
  exact ⟨h.1.2.2.1, h.2.2.2⟩
